import Mathlib

/-!
Verification of the voltage ramp-and-monitor helpers of
`bcqthubrevamp/experiments/InstrumentSandbox.ipynb` (cell 4):
`ramp_voltage`, `reset_HEMT_settings`, `turn_on_HEMTS`, `turn_off_HEMTS`.

The power-supply driver is an opaque collaborator (it lives outside this
repository); it is modelled as an oracle (`PSU`) answering each driver
call.  Numeric arithmetic is modelled exactly over `ℚ` (the idealized
real-number semantics of the Python/numpy code).  Python exceptions are
modelled with `Except PyError`; driver interactions are recorded in an
event trace so that ordering properties can be stated.
-/

/-- Python exceptions that the modelled notebook code can raise:
`TypeError` (bad call arity / unexpected keyword argument),
`ZeroDivisionError` (raised by `np.arange` when the step is zero),
`AssertionError` (a failed `assert`), and a stand-in for an exception
raised by a power-supply driver call. -/
inductive PyError where
  | typeError
  | zeroDivisionError
  | assertionError
  | deviceCommandError
deriving DecidableEq

/-- One observable interaction with the power-supply collaborator.
Getter events record the value the device returned; `sleep` records a
call to `time.sleep`. -/
inductive Event where
  | setVoltage (ch : ℤ) (v : ℚ)
  | getCurrent (ch : ℤ) (c : ℚ)
  | sleep (d : ℚ)
  | setOvercurrent (ch : ℤ) (ocp : ℚ)
  | getOutput (status : Bool)
  | getVoltage (ch : ℤ) (v : ℚ)
  | setOutput (ch : ℤ) (b : Bool)
deriving DecidableEq

/-- Oracle for the opaque power-supply driver.  `setFail k` tells whether
the `k`-th `set_channel_voltage` call raises (and which exception);
`current k` is the outcome of the `k`-th `get_channel_current` call;
`outputStatus` is what `get_output()` returns; `readback ch` is what
`get_channel_voltage(ch)` returns. -/
structure PSU where
  setFail : Nat → Option PyError
  current : Nat → Except PyError ℚ
  outputStatus : Bool
  readback : ℤ → ℚ

/-- A device whose calls never raise: every `set_channel_voltage`
succeeds and the `k`-th `get_channel_current` returns `cur k`; the
output is off and both channels read back 0 V. -/
def reliable (cur : Nat → ℚ) : PSU :=
  ⟨fun _ => none, fun k => Except.ok (cur k), false, fun _ => 0⟩

/-- `np.arange(start, stop, step)` over exact rationals: the values
`start + i * step` for `0 ≤ i < ⌈(stop - start) / step⌉`; numpy raises
`ZeroDivisionError` when `step = 0`. -/
def arange (start stop step : ℚ) : Except PyError (List ℚ) :=
  if step = 0 then Except.error PyError.zeroDivisionError
  else Except.ok ((List.range (⌈(stop - start) / step⌉).toNat).map
    fun i : Nat => start + (i : ℚ) * step)

/-- The setpoint list built by the first statement of `ramp_voltage`:
`np.arange(v_start, v_stop + v_step, v_step) if v_stop >= v_start else
np.arange(v_start, v_stop - v_step, -v_step)`. -/
def rampSetpoints (v_start v_stop v_step : ℚ) : Except PyError (List ℚ) :=
  if v_start ≤ v_stop then arange v_start (v_stop + v_step) v_step
  else arange v_start (v_stop - v_step) (-v_step)

/-- The `for v in voltages` loop of `ramp_voltage`, with `k` the number
of loop iterations already performed (it indexes the driver oracle).
Per iteration: `psu.set_channel_voltage(channel, v)`, then
`cur = psu.get_channel_current(channel)`, then `data.append((v, cur))`,
then `time.sleep(delay)`.  A raising driver call aborts the loop: the
exception propagates (there is no `try` in the source) and the local
`data` list is lost.  The console `print` calls are not modelled. -/
def rampLoop (psu : PSU) (channel : ℤ) (delay : ℚ) :
    List ℚ → Nat → Except PyError (List (ℚ × ℚ)) × List Event
  | [], _ => (Except.ok [], [])
  | v :: vs, k =>
    match psu.setFail k with
    | some e => (Except.error e, [])
    | none =>
      match psu.current k with
      | Except.error e => (Except.error e, [Event.setVoltage channel v])
      | Except.ok c =>
        let r := rampLoop psu channel delay vs (k + 1)
        (r.1.map (fun d => (v, c) :: d),
         Event.setVoltage channel v :: Event.getCurrent channel c ::
           Event.sleep delay :: r.2)

/-- `ramp_voltage(psu, channel, v_start, v_stop, v_step=0.01, delay=1)`
from the source: build the setpoints with `np.arange`, then run the
sweep loop.  Returns the Python result (the `data` list of
`(voltage, current)` pairs, or the propagated exception) together with
the trace of driver interactions. -/
def ramp_voltage (psu : PSU) (channel : ℤ) (v_start v_stop v_step delay : ℚ) :
    Except PyError (List (ℚ × ℚ)) × List Event :=
  match rampSetpoints v_start v_stop v_step with
  | Except.error e => (Except.error e, [])
  | Except.ok vs => rampLoop psu channel delay vs 0

/-- The `data` list built by a ramp whose driver calls all succeed:
setpoint `i` is paired with the current returned by the `(k+i)`-th
`get_channel_current` call. -/
def rampData (cur : Nat → ℚ) : List ℚ → Nat → List (ℚ × ℚ)
  | [], _ => []
  | v :: vs, k => (v, cur k) :: rampData cur vs (k + 1)

/-- The driver-interaction trace of a ramp whose calls all succeed: for
each setpoint, in order, a `set_channel_voltage`, then a
`get_channel_current` (the returned pair is recorded between the get
and the sleep), then a `time.sleep(delay)`. -/
def rampTrace (cur : Nat → ℚ) (ch : ℤ) (delay : ℚ) : List ℚ → Nat → List Event
  | [], _ => []
  | v :: vs, k =>
    Event.setVoltage ch v :: Event.getCurrent ch (cur k) ::
      Event.sleep delay :: rampTrace cur ch delay vs (k + 1)

/-- The voltages commanded to the device, in order, as recorded in a
trace (the arguments of the `set_channel_voltage` events). -/
def commandedVoltages (tr : List Event) : List ℚ :=
  tr.filterMap fun e =>
    match e with
    | Event.setVoltage _ v => some v
    | _ => none

/-- The last voltage successfully commanded to the device in a trace. -/
def lastCommanded (tr : List Event) : Option ℚ :=
  (commandedVoltages tr).getLast?

/-- How many times a trace blocks in `time.sleep`. -/
def sleepCount (tr : List Event) : Nat :=
  tr.countP fun e =>
    match e with
    | Event.sleep _ => true
    | _ => false

/-- Abbreviation for the arithmetic-progression list produced by
`np.arange`: `start`, `start + step`, …, `n` terms. -/
def aList (start step : ℚ) (n : Nat) : List ℚ :=
  (List.range n).map fun i : Nat => start + (i : ℚ) * step

theorem arange_eq_aList (start stop step : ℚ) (h : step ≠ 0) :
    arange start stop step =
      Except.ok (aList start step (⌈(stop - start) / step⌉).toNat) := by
  simp [arange, aList, h]

theorem reliable_setFail (cur : Nat → ℚ) (k : Nat) :
    (reliable cur).setFail k = none := rfl

theorem reliable_current (cur : Nat → ℚ) (k : Nat) :
    (reliable cur).current k = Except.ok (cur k) := rfl

theorem rampLoop_reliable (cur : Nat → ℚ) (ch : ℤ) (delay : ℚ) :
    ∀ (vs : List ℚ) (k : Nat),
      rampLoop (reliable cur) ch delay vs k =
        (Except.ok (rampData cur vs k), rampTrace cur ch delay vs k) := by
  intro vs
  induction vs with
  | nil => intro k; rfl
  | cons v vs ih =>
    intro k
    simp [rampLoop, reliable_setFail, reliable_current, rampData, rampTrace,
      ih (k + 1), Except.map]

theorem ramp_voltage_reliable (cur : Nat → ℚ) (ch : ℤ)
    (v_start v_stop v_step delay : ℚ) (vs : List ℚ)
    (hvs : rampSetpoints v_start v_stop v_step = Except.ok vs) :
    ramp_voltage (reliable cur) ch v_start v_stop v_step delay =
      (Except.ok (rampData cur vs 0), rampTrace cur ch delay vs 0) := by
  unfold ramp_voltage
  rw [hvs]
  exact rampLoop_reliable cur ch delay vs 0

theorem rampData_map_fst (cur : Nat → ℚ) :
    ∀ (vs : List ℚ) (k : Nat), (rampData cur vs k).map Prod.fst = vs := by
  intro vs
  induction vs with
  | nil => intro k; rfl
  | cons v vs ih => intro k; simp [rampData, ih (k + 1)]

theorem rampData_length (cur : Nat → ℚ) :
    ∀ (vs : List ℚ) (k : Nat), (rampData cur vs k).length = vs.length := by
  intro vs
  induction vs with
  | nil => intro k; rfl
  | cons v vs ih => intro k; simp [rampData, ih (k + 1)]

theorem rampData_get (cur : Nat → ℚ) :
    ∀ (vs : List ℚ) (k i : Nat) (h1 : i < (rampData cur vs k).length)
      (h2 : i < vs.length),
      (rampData cur vs k).get ⟨i, h1⟩ = (vs.get ⟨i, h2⟩, cur (k + i)) := by
  intro vs
  induction vs with
  | nil => intro k i h1 h2; simp at h2
  | cons v vs ih =>
    intro k i h1 h2
    cases i with
    | zero => simp [rampData]
    | succ j =>
      have hj1 : j < (rampData cur vs (k + 1)).length := by
        simpa [rampData] using h1
      have hj2 : j < vs.length := by simpa using h2
      have := ih (k + 1) j hj1 hj2
      simpa [rampData, Nat.add_assoc, Nat.add_comm 1 j] using this

theorem aList_length (s st : ℚ) (n : Nat) : (aList s st n).length = n := by
  simp [aList]

theorem aList_succ (s st : ℚ) (n : Nat) :
    aList s st (n + 1) = s :: aList (s + st) st n := by
  simp only [aList, List.range_succ_eq_map, List.map_cons, List.map_map]
  refine congrArg₂ List.cons (by push_cast; ring) ?_
  refine List.map_congr_left ?_
  intro i _
  simp only [Function.comp]
  push_cast
  ring

theorem aList_head (s st : ℚ) (n : Nat) (h : 0 < n) :
    (aList s st n).head? = some s := by
  cases n with
  | zero => exact absurd h (by simp)
  | succ m => rw [aList_succ]; rfl

theorem aList_getLast (s st : ℚ) (n : Nat) :
    (aList s st (n + 1)).getLast? = some (s + (n : ℚ) * st) := by
  have h : List.range (n + 1) = List.range n ++ [n] := List.range_succ n
  simp [aList, h]

theorem aList_pairwise_lt (s st : ℚ) (n : Nat) (h : 0 < st) :
    (aList s st n).Pairwise (· < ·) := by
  rw [aList, List.pairwise_map]
  refine (List.pairwise_lt_range n).imp ?_
  intro a b hab
  have : (a : ℚ) < (b : ℚ) := by exact_mod_cast hab
  nlinarith

theorem aList_pairwise_gt (s st : ℚ) (n : Nat) (h : st < 0) :
    (aList s st n).Pairwise (fun a b => b < a) := by
  rw [aList, List.pairwise_map]
  refine (List.pairwise_lt_range n).imp ?_
  intro a b hab
  have : (a : ℚ) < (b : ℚ) := by exact_mod_cast hab
  nlinarith

theorem aList_chain (s st : ℚ) (n : Nat) :
    (aList s st n).Chain' (fun a b => b - a = st) := by
  induction n generalizing s with
  | zero => simp [aList]
  | succ m ih =>
    rw [aList_succ, List.chain'_cons']
    refine ⟨?_, ih (s + st)⟩
    intro y hy
    cases m with
    | zero => simp [aList] at hy
    | succ m' =>
      rw [aList_head (s + st) st (m' + 1) (Nat.succ_pos m')] at hy
      simp only [Option.mem_def, Option.some.injEq] at hy
      rw [← hy]
      ring

theorem rampSetpoints_asc (v_start v_stop v_step : ℚ)
    (hge : v_start ≤ v_stop) (hstep : 0 < v_step) :
    rampSetpoints v_start v_stop v_step =
      Except.ok (aList v_start v_step
        ((⌈(v_stop - v_start) / v_step⌉).toNat + 1)) := by
  have hne : v_step ≠ 0 := ne_of_gt hstep
  have h1 : (v_stop + v_step - v_start) / v_step =
      (v_stop - v_start) / v_step + 1 := by
    rw [show v_stop + v_step - v_start = v_stop - v_start + v_step by ring,
      add_div, div_self hne]
  have h0 : 0 ≤ ⌈(v_stop - v_start) / v_step⌉ :=
    Int.ceil_nonneg (div_nonneg (by linarith) hstep.le)
  have hn : (⌈(v_stop + v_step - v_start) / v_step⌉).toNat =
      (⌈(v_stop - v_start) / v_step⌉).toNat + 1 := by
    rw [h1, Int.ceil_add_one]
    omega
  rw [rampSetpoints, if_pos hge, arange_eq_aList _ _ _ hne, hn]

theorem rampSetpoints_desc (v_start v_stop v_step : ℚ)
    (hlt : v_stop < v_start) (hstep : 0 < v_step) :
    rampSetpoints v_start v_stop v_step =
      Except.ok (aList v_start (-v_step)
        ((⌈(v_start - v_stop) / v_step⌉).toNat + 1)) := by
  have hne : v_step ≠ 0 := ne_of_gt hstep
  have hnegne : -v_step ≠ 0 := neg_ne_zero.mpr hne
  have h1 : (v_stop - v_step - v_start) / (-v_step) =
      (v_start - v_stop) / v_step + 1 := by
    rw [show v_stop - v_step - v_start = -(v_start - v_stop + v_step) by ring,
      neg_div_neg_eq, add_div, div_self hne]
  have h0 : 0 ≤ ⌈(v_start - v_stop) / v_step⌉ :=
    Int.ceil_nonneg (div_nonneg (by linarith) hstep.le)
  have hn : (⌈(v_stop - v_step - v_start) / (-v_step)⌉).toNat =
      (⌈(v_start - v_stop) / v_step⌉).toNat + 1 := by
    rw [h1, Int.ceil_add_one]
    omega
  rw [rampSetpoints, if_neg (not_le.mpr hlt), arange_eq_aList _ _ _ hnegne, hn]

theorem ceil_toNat_cast (d : ℚ) (hd : 0 ≤ d) :
    (((⌈d⌉).toNat : ℕ) : ℚ) = ((⌈d⌉ : ℤ) : ℚ) := by
  exact_mod_cast Int.toNat_of_nonneg (Int.ceil_nonneg hd)

theorem ceil_mul_ge (d v_step : ℚ) (hd : 0 ≤ d) (hstep : 0 < v_step) :
    d * v_step ≤ ((⌈d⌉).toNat : ℚ) * v_step := by
  rw [ceil_toNat_cast d hd]
  exact mul_le_mul_of_nonneg_right (Int.le_ceil d) hstep.le

theorem lt_ceil_mul (d v_step : ℚ) (hd : 0 ≤ d) (hstep : 0 < v_step)
    (j : Nat) (hj : j < (⌈d⌉).toNat) : (j : ℚ) * v_step < d * v_step := by
  have hK : ((⌈d⌉).toNat : ℤ) = ⌈d⌉ := Int.toNat_of_nonneg (Int.ceil_nonneg hd)
  have hjZ : (j : ℤ) ≤ ⌈d⌉ - 1 := by omega
  have hjq : (j : ℚ) ≤ ((⌈d⌉ : ℤ) : ℚ) - 1 := by exact_mod_cast hjZ
  have hceil : ((⌈d⌉ : ℤ) : ℚ) < d + 1 := Int.ceil_lt_add_one d
  have : (j : ℚ) < d := by linarith
  exact mul_lt_mul_of_pos_right this hstep

/-- C1: for every `ramp_voltage` call with `v_step > 0` on a device whose
calls succeed, the voltage values of the returned sequence start at
`v_start`, are strictly increasing when `v_stop ≥ v_start` and strictly
decreasing when `v_stop < v_start`, and consecutive voltages differ by
exactly `v_step` in magnitude (no setpoint skipped or repeated). -/
theorem ramp_voltage_strict_monotone (cur : Nat → ℚ) (ch : ℤ)
    (v_start v_stop v_step delay : ℚ) (hstep : 0 < v_step) :
    ∃ data,
      (ramp_voltage (reliable cur) ch v_start v_stop v_step delay).1 =
        Except.ok data ∧
      (data.map Prod.fst).head? = some v_start ∧
      (v_start ≤ v_stop →
        (data.map Prod.fst).Pairwise (· < ·) ∧
        (data.map Prod.fst).Chain' (fun a b => b - a = v_step)) ∧
      (v_stop < v_start →
        (data.map Prod.fst).Pairwise (fun a b => b < a) ∧
        (data.map Prod.fst).Chain' (fun a b => a - b = v_step)) := by
  rcases le_or_lt v_start v_stop with hge | hlt
  · have hsp := rampSetpoints_asc v_start v_stop v_step hge hstep
    have hr := ramp_voltage_reliable cur ch v_start v_stop v_step delay _ hsp
    refine ⟨_, by rw [hr], ?_, ?_, ?_⟩
    · rw [rampData_map_fst]
      exact aList_head _ _ _ (Nat.succ_pos _)
    · intro _
      rw [rampData_map_fst]
      exact ⟨aList_pairwise_lt _ _ _ hstep, aList_chain _ _ _⟩
    · intro h
      exact absurd hge (not_le.mpr h)
  · have hsp := rampSetpoints_desc v_start v_stop v_step hlt hstep
    have hr := ramp_voltage_reliable cur ch v_start v_stop v_step delay _ hsp
    refine ⟨_, by rw [hr], ?_, ?_, ?_⟩
    · rw [rampData_map_fst]
      exact aList_head _ _ _ (Nat.succ_pos _)
    · intro h
      exact absurd h (not_le.mpr hlt)
    · intro _
      rw [rampData_map_fst]
      refine ⟨aList_pairwise_gt _ _ _ (neg_lt_zero.mpr hstep), ?_⟩
      refine (aList_chain _ _ _).imp ?_
      intro a b hab
      linarith

/-- Witness for C1 at `v_start = 0`, `v_stop = 1`, `v_step = 0.3`. -/
theorem ramp_voltage_strict_monotone_witness :
    ∃ data,
      (ramp_voltage (reliable fun _ => 0) 1 0 1 0.3 1).1 = Except.ok data ∧
      (data.map Prod.fst).head? = some 0 ∧
      ((0 : ℚ) ≤ 1 →
        (data.map Prod.fst).Pairwise (· < ·) ∧
        (data.map Prod.fst).Chain' (fun a b => b - a = 0.3)) ∧
      ((1 : ℚ) < 0 →
        (data.map Prod.fst).Pairwise (fun a b => b < a) ∧
        (data.map Prod.fst).Chain' (fun a b => a - b = 0.3)) :=
  ramp_voltage_strict_monotone (fun _ => 0) 1 0 1 0.3 1 (by norm_num)

/-- C3: for every `ramp_voltage` call with `v_step > 0` on a device whose
calls succeed, the returned sequence has length
`⌈(v_stop - v_start) / v_step⌉ + 1` when `v_stop ≥ v_start`, and
`⌈(v_start - v_stop) / v_step⌉ + 1` when `v_stop < v_start`. -/
theorem ramp_voltage_length (cur : Nat → ℚ) (ch : ℤ)
    (v_start v_stop v_step delay : ℚ) (hstep : 0 < v_step) :
    ∃ data,
      (ramp_voltage (reliable cur) ch v_start v_stop v_step delay).1 =
        Except.ok data ∧
      (v_start ≤ v_stop →
        data.length = (⌈(v_stop - v_start) / v_step⌉).toNat + 1) ∧
      (v_stop < v_start →
        data.length = (⌈(v_start - v_stop) / v_step⌉).toNat + 1) := by
  rcases le_or_lt v_start v_stop with hge | hlt
  · have hsp := rampSetpoints_asc v_start v_stop v_step hge hstep
    have hr := ramp_voltage_reliable cur ch v_start v_stop v_step delay _ hsp
    refine ⟨_, by rw [hr], ?_, ?_⟩
    · intro _
      rw [rampData_length, aList_length]
    · intro h
      exact absurd hge (not_le.mpr h)
  · have hsp := rampSetpoints_desc v_start v_stop v_step hlt hstep
    have hr := ramp_voltage_reliable cur ch v_start v_stop v_step delay _ hsp
    refine ⟨_, by rw [hr], ?_, ?_⟩
    · intro h
      exact absurd h (not_le.mpr hlt)
    · intro _
      rw [rampData_length, aList_length]

/-- Witness for C3 at `v_start = 0`, `v_stop = 1`, `v_step = 0.3`
(length `⌈10/3⌉ + 1 = 5`). -/
theorem ramp_voltage_length_witness :
    ∃ data,
      (ramp_voltage (reliable fun _ => 0) 1 0 1 0.3 1).1 = Except.ok data ∧
      ((0 : ℚ) ≤ 1 →
        data.length = (⌈((1 : ℚ) - 0) / 0.3⌉).toNat + 1) ∧
      ((1 : ℚ) < 0 →
        data.length = (⌈((0 : ℚ) - 1) / 0.3⌉).toNat + 1) :=
  ramp_voltage_length (fun _ => 0) 1 0 1 0.3 1 (by norm_num)

/-- C2: for every `ramp_voltage` call with `v_step > 0` on a device whose
calls succeed, the last voltage of the returned sequence is the first
value at or past `v_stop` (in the ramp direction) reached by repeatedly
adding `v_step` (or `-v_step`) to `v_start`; in particular `v_start = 0`,
`v_stop = 1`, `v_step = 0.3` yields exactly the voltages
`[0, 0.3, 0.6, 0.9, 1.2]`. -/
theorem ramp_voltage_last_setpoint (cur : Nat → ℚ) (ch : ℤ)
    (v_start v_stop v_step delay : ℚ) (hstep : 0 < v_step) :
    ∃ data,
      (ramp_voltage (reliable cur) ch v_start v_stop v_step delay).1 =
        Except.ok data ∧
      (v_start ≤ v_stop →
        (data.map Prod.fst).getLast? =
          some (v_start + ((⌈(v_stop - v_start) / v_step⌉).toNat : ℚ) * v_step) ∧
        v_stop ≤ v_start + ((⌈(v_stop - v_start) / v_step⌉).toNat : ℚ) * v_step ∧
        (∀ j : Nat, j < (⌈(v_stop - v_start) / v_step⌉).toNat →
          v_start + (j : ℚ) * v_step < v_stop)) ∧
      (v_stop < v_start →
        (data.map Prod.fst).getLast? =
          some (v_start - ((⌈(v_start - v_stop) / v_step⌉).toNat : ℚ) * v_step) ∧
        v_start - ((⌈(v_start - v_stop) / v_step⌉).toNat : ℚ) * v_step ≤ v_stop ∧
        (∀ j : Nat, j < (⌈(v_start - v_stop) / v_step⌉).toNat →
          v_stop < v_start - (j : ℚ) * v_step)) ∧
      (v_start = 0 → v_stop = 1 → v_step = 0.3 →
        data.map Prod.fst = [0, 0.3, 0.6, 0.9, 1.2]) := by
  have hne : v_step ≠ 0 := ne_of_gt hstep
  rcases le_or_lt v_start v_stop with hge | hlt
  · have hd : 0 ≤ (v_stop - v_start) / v_step :=
      div_nonneg (by linarith) hstep.le
    have hsp := rampSetpoints_asc v_start v_stop v_step hge hstep
    have hr := ramp_voltage_reliable cur ch v_start v_stop v_step delay _ hsp
    refine ⟨_, by rw [hr], ?_, ?_, ?_⟩
    · intro _
      refine ⟨?_, ?_, ?_⟩
      · rw [rampData_map_fst]
        exact aList_getLast _ _ _
      · have h1 := ceil_mul_ge ((v_stop - v_start) / v_step) v_step hd hstep
        rw [div_mul_cancel₀ _ hne] at h1
        linarith
      · intro j hj
        have h1 := lt_ceil_mul ((v_stop - v_start) / v_step) v_step hd hstep j hj
        rw [div_mul_cancel₀ _ hne] at h1
        linarith
    · intro h
      exact absurd hge (not_le.mpr h)
    · intro h1 h2 h3
      subst h1; subst h2; subst h3
      rw [rampData_map_fst]
      have hc : (⌈((1 : ℚ) - 0) / 0.3⌉ = 4) := by norm_num [Int.ceil_eq_iff]
      rw [hc]
      show aList 0 0.3 5 = _
      have h5 : List.range 5 = [0, 1, 2, 3, 4] := by rfl
      rw [aList, h5]
      norm_num
  · have hd : 0 ≤ (v_start - v_stop) / v_step :=
      div_nonneg (by linarith) hstep.le
    have hsp := rampSetpoints_desc v_start v_stop v_step hlt hstep
    have hr := ramp_voltage_reliable cur ch v_start v_stop v_step delay _ hsp
    refine ⟨_, by rw [hr], ?_, ?_, ?_⟩
    · intro h
      exact absurd h (not_le.mpr hlt)
    · intro _
      refine ⟨?_, ?_, ?_⟩
      · rw [rampData_map_fst, aList_getLast]
        exact congrArg some (by ring)
      · have h1 := ceil_mul_ge ((v_start - v_stop) / v_step) v_step hd hstep
        rw [div_mul_cancel₀ _ hne] at h1
        linarith
      · intro j hj
        have h1 := lt_ceil_mul ((v_start - v_stop) / v_step) v_step hd hstep j hj
        rw [div_mul_cancel₀ _ hne] at h1
        linarith
    · intro h1 h2 h3
      subst h1; subst h2
      exact absurd hlt (by norm_num)

/-- Witness for C2 at the spec's example `v_start = 0`, `v_stop = 1`,
`v_step = 0.3`. -/
theorem ramp_voltage_last_setpoint_witness :
    ∃ data,
      (ramp_voltage (reliable fun _ => 0) 1 0 1 0.3 1).1 = Except.ok data ∧
      ((0 : ℚ) ≤ 1 →
        (data.map Prod.fst).getLast? =
          some (0 + ((⌈((1 : ℚ) - 0) / 0.3⌉).toNat : ℚ) * 0.3) ∧
        (1 : ℚ) ≤ 0 + ((⌈((1 : ℚ) - 0) / 0.3⌉).toNat : ℚ) * 0.3 ∧
        (∀ j : Nat, j < (⌈((1 : ℚ) - 0) / 0.3⌉).toNat →
          0 + (j : ℚ) * 0.3 < 1)) ∧
      ((1 : ℚ) < 0 →
        (data.map Prod.fst).getLast? =
          some (0 - ((⌈((0 : ℚ) - 1) / 0.3⌉).toNat : ℚ) * 0.3) ∧
        0 - ((⌈((0 : ℚ) - 1) / 0.3⌉).toNat : ℚ) * 0.3 ≤ 1 ∧
        (∀ j : Nat, j < (⌈((0 : ℚ) - 1) / 0.3⌉).toNat →
          (1 : ℚ) < 0 - (j : ℚ) * 0.3)) ∧
      ((0 : ℚ) = 0 → (1 : ℚ) = 1 → (0.3 : ℚ) = 0.3 →
        data.map Prod.fst = [0, 0.3, 0.6, 0.9, 1.2]) :=
  ramp_voltage_last_setpoint (fun _ => 0) 1 0 1 0.3 1 (by norm_num)

/-- C5: on a device whose calls succeed, `ramp_voltage` performs, for
each setpoint in order, a `set_channel_voltage` then a
`get_channel_current` then a `time.sleep(delay)` (the trace equals
`rampTrace`), and returns exactly one `(voltage, current)` pair per
commanded setpoint in time order, where pair `i` carries the current the
device returned for step `i`. -/
theorem ramp_voltage_step_order (cur : Nat → ℚ) (ch : ℤ)
    (v_start v_stop v_step delay : ℚ) (vs : List ℚ)
    (hvs : rampSetpoints v_start v_stop v_step = Except.ok vs) :
    (ramp_voltage (reliable cur) ch v_start v_stop v_step delay).1 =
      Except.ok (rampData cur vs 0) ∧
    (ramp_voltage (reliable cur) ch v_start v_stop v_step delay).2 =
      rampTrace cur ch delay vs 0 ∧
    (rampData cur vs 0).map Prod.fst = vs ∧
    ∀ (i : Nat) (h1 : i < (rampData cur vs 0).length) (h2 : i < vs.length),
      (rampData cur vs 0).get ⟨i, h1⟩ = (vs.get ⟨i, h2⟩, cur i) := by
  have hr := ramp_voltage_reliable cur ch v_start v_stop v_step delay vs hvs
  refine ⟨by rw [hr], by rw [hr], rampData_map_fst cur vs 0, ?_⟩
  intro i h1 h2
  simpa using rampData_get cur vs 0 i h1 h2

/-- The setpoints of the ramp `(v_start, v_stop, v_step) = (0, 1, 0.3)`:
`np.arange(0, 1.3, 0.3) = [0, 0.3, 0.6, 0.9, 1.2]`. -/
theorem rampSetpoints_example :
    rampSetpoints 0 1 0.3 = Except.ok [0, 0.3, 0.6, 0.9, 1.2] := by
  rw [rampSetpoints_asc 0 1 0.3 (by norm_num) (by norm_num)]
  have hc : (⌈((1 : ℚ) - 0) / 0.3⌉ = 4) := by norm_num [Int.ceil_eq_iff]
  rw [hc]
  have h5 : List.range 5 = [0, 1, 2, 3, 4] := by rfl
  show Except.ok (aList 0 0.3 5) = _
  rw [aList, h5]
  norm_num

/-- The setpoints of the ramp `(v_start, v_stop, v_step) = (0, 0.6, 0.3)`:
`np.arange(0, 0.9, 0.3) = [0, 0.3, 0.6]`. -/
theorem rampSetpoints_example2 :
    rampSetpoints 0 0.6 0.3 = Except.ok [0, 0.3, 0.6] := by
  rw [rampSetpoints_asc 0 0.6 0.3 (by norm_num) (by norm_num)]
  have hc : (⌈((0.6 : ℚ) - 0) / 0.3⌉ = 2) := by norm_num [Int.ceil_eq_iff]
  rw [hc]
  have h3 : List.range 3 = [0, 1, 2] := by rfl
  show Except.ok (aList 0 0.3 3) = _
  rw [aList, h3]
  norm_num

/-- Witness for C5 at `(0, 1, 0.3)` with device currents `cur k = k`. -/
theorem ramp_voltage_step_order_witness :
    (ramp_voltage (reliable fun k => (k : ℚ)) 1 0 1 0.3 1).1 =
      Except.ok (rampData (fun k => (k : ℚ)) [0, 0.3, 0.6, 0.9, 1.2] 0) :=
  (ramp_voltage_step_order (fun k => (k : ℚ)) 1 0 1 0.3 1
    [0, 0.3, 0.6, 0.9, 1.2] rampSetpoints_example).1

theorem rampSetpoints_ok (v_start v_stop v_step : ℚ) (hs : v_step ≠ 0) :
    ∃ vs, rampSetpoints v_start v_stop v_step = Except.ok vs := by
  unfold rampSetpoints
  by_cases h : v_start ≤ v_stop
  · rw [if_pos h, arange_eq_aList _ _ _ hs]
    exact ⟨_, rfl⟩
  · rw [if_neg h, arange_eq_aList _ _ _ (neg_ne_zero.mpr hs)]
    exact ⟨_, rfl⟩

theorem sleepCount_rampTrace (cur : Nat → ℚ) (ch : ℤ) (delay : ℚ) :
    ∀ (vs : List ℚ) (k : Nat),
      sleepCount (rampTrace cur ch delay vs k) = vs.length := by
  intro vs
  induction vs with
  | nil => intro k; rfl
  | cons v vs ih =>
    intro k
    simp [rampTrace, sleepCount, List.countP_cons] at ih ⊢
    exact ih (k + 1)

/-- C8: on a device whose calls succeed, every setpoint — the final one
included — is followed by a `time.sleep(delay)`: a ramp recording `n`
pairs blocks in sleep exactly `n` times. -/
theorem ramp_voltage_sleep_per_setpoint (cur : Nat → ℚ) (ch : ℤ)
    (v_start v_stop v_step delay : ℚ) (hs : v_step ≠ 0) :
    ∃ data,
      (ramp_voltage (reliable cur) ch v_start v_stop v_step delay).1 =
        Except.ok data ∧
      sleepCount (ramp_voltage (reliable cur) ch v_start v_stop v_step delay).2 =
        data.length := by
  obtain ⟨vs, hvs⟩ := rampSetpoints_ok v_start v_stop v_step hs
  have hr := ramp_voltage_reliable cur ch v_start v_stop v_step delay vs hvs
  refine ⟨_, by rw [hr], ?_⟩
  rw [hr]
  show sleepCount (rampTrace cur ch delay vs 0) = (rampData cur vs 0).length
  rw [sleepCount_rampTrace, rampData_length]

/-- Witness for C8 at `(0, 1, 0.3)`: five pairs, five sleeps. -/
theorem ramp_voltage_sleep_per_setpoint_witness :
    ∃ data,
      (ramp_voltage (reliable fun _ => 0) 1 0 1 0.3 1).1 = Except.ok data ∧
      sleepCount (ramp_voltage (reliable fun _ => 0) 1 0 1 0.3 1).2 =
        data.length :=
  ramp_voltage_sleep_per_setpoint (fun _ => 0) 1 0 1 0.3 1 (by norm_num)

/-- The setpoints of the ramp `(v_start, v_stop, v_step) = (1, 0, -2)`:
the descending branch runs `np.arange(1, 0 - (-2), -(-2)) =
np.arange(1, 2, 2) = [1]`. -/
theorem rampSetpoints_negStep_example :
    rampSetpoints 1 0 (-2) = Except.ok [1] := by
  have h1 : rampSetpoints 1 0 (-2) = arange 1 (0 - -2) (- -2) := by
    unfold rampSetpoints
    rw [if_neg (by norm_num)]
  have hc : (⌈(((0 : ℚ) - -2) - 1) / - -2⌉ = 1) := by
    norm_num [Int.ceil_eq_iff]
  rw [h1, arange_eq_aList _ _ _ (by norm_num), hc]
  have hr1 : List.range 1 = [0] := rfl
  show Except.ok (aList 1 (- -2) 1) = _
  rw [aList, hr1]
  norm_num

/-- C4 counterexample: the claim asserts every call with a negative
`v_step` fails with `InvalidRampBounds` before any device command, but
`ramp_voltage(psu, 1, v_start = 1, v_stop = 0, v_step = -2, delay = 1)`
raises no error at all: it commands the device to 1 V, reads a current,
and returns normally with one pair (and the code defines no
`InvalidRampBounds` error anywhere). -/
theorem ramp_voltage_negative_step_no_failure :
    (ramp_voltage (reliable fun _ => 0) 1 1 0 (-2) 1).1 =
      Except.ok [(1, 0)] ∧
    commandedVoltages (ramp_voltage (reliable fun _ => 0) 1 1 0 (-2) 1).2 =
      [1] := by
  have hr := ramp_voltage_reliable (fun _ => 0) 1 1 0 (-2) 1 [1]
    rampSetpoints_negStep_example
  constructor
  · rw [hr]
    rfl
  · rw [hr]
    rfl

/-- C4 amended: with `v_step = 0`, `ramp_voltage` fails before any
device command is issued, but with the `ZeroDivisionError` raised by
`np.arange` — the code defines no `InvalidRampBounds` — and this holds
for every `(v_start, v_stop)` and every device; with a negative
`v_step`, the call does not fail at all on a device whose calls
succeed (it runs on whatever sequence `np.arange` yields, possibly
commanding voltages). -/
theorem ramp_voltage_zero_step_zeroDivision (psu : PSU) (ch : ℤ)
    (v_start v_stop delay : ℚ) :
    ramp_voltage psu ch v_start v_stop 0 delay =
      (Except.error PyError.zeroDivisionError, []) ∧
    ∀ v_step : ℚ, v_step < 0 → ∀ cur : Nat → ℚ, ∃ data,
      (ramp_voltage (reliable cur) ch v_start v_stop v_step delay).1 =
        Except.ok data := by
  constructor
  · have hz : rampSetpoints v_start v_stop 0 =
        Except.error PyError.zeroDivisionError := by
      unfold rampSetpoints arange
      by_cases h : v_start ≤ v_stop
      · rw [if_pos h, if_pos rfl]
      · rw [if_neg h, if_pos (by norm_num)]
    unfold ramp_voltage
    rw [hz]
  · intro v_step hneg cur
    obtain ⟨vs, hvs⟩ := rampSetpoints_ok v_start v_stop v_step (ne_of_lt hneg)
    exact ⟨_, by rw [ramp_voltage_reliable cur ch v_start v_stop v_step delay vs hvs]⟩

/-- Witness for C4's amended claim at concrete inputs: step 0 raises
`ZeroDivisionError` with an empty trace; step `-1` returns `ok`. -/
theorem ramp_voltage_zero_step_zeroDivision_witness :
    ramp_voltage (reliable fun _ => 0) 1 0 1 0 1 =
      (Except.error PyError.zeroDivisionError, []) ∧
    ∃ data, (ramp_voltage (reliable fun _ => 0) 1 0 1 (-1) 1).1 =
      Except.ok data :=
  ⟨(ramp_voltage_zero_step_zeroDivision (reliable fun _ => 0) 1 0 1 1).1,
   (ramp_voltage_zero_step_zeroDivision (reliable fun _ => 0) 1 0 1 1).2
     (-1) (by norm_num) (fun _ => 0)⟩

theorem take_getLast (vs : List ℚ) (m : Nat) (h0 : 0 < m) (hm : m ≤ vs.length) :
    (vs.take m).getLast? = vs[m - 1]? := by
  rw [List.getLast?_eq_getElem? (vs.take m)]
  have hlen : (vs.take m).length = m := by
    rw [List.length_take]
    omega
  rw [hlen, List.getElem?_take, if_pos (by omega)]

theorem rampLoop_setFail (psu : PSU) (ch : ℤ) (delay : ℚ) (e : PyError) :
    ∀ (vs : List ℚ) (j m : Nat), m < vs.length →
      (∀ i, i < m → psu.setFail (j + i) = none) →
      (∀ i, i < m → ∃ c, psu.current (j + i) = Except.ok c) →
      psu.setFail (j + m) = some e →
      (rampLoop psu ch delay vs j).1 = Except.error e ∧
      commandedVoltages (rampLoop psu ch delay vs j).2 = vs.take m := by
  intro vs
  induction vs with
  | nil => intro j m hm _ _ _; simp at hm
  | cons v vs ih =>
    intro j m hm hset hget hfail
    cases m with
    | zero =>
      rw [Nat.add_zero] at hfail
      simp [rampLoop, hfail, commandedVoltages]
    | succ m' =>
      have hs0 : psu.setFail j = none := by
        have h := hset 0 (Nat.succ_pos m')
        rwa [Nat.add_zero] at h
      obtain ⟨c, hc0⟩ : ∃ c, psu.current j = Except.ok c := by
        have h := hget 0 (Nat.succ_pos m')
        rwa [Nat.add_zero] at h
      have ih' := ih (j + 1) m' (by simpa using hm)
        (fun i hi => by
          have h := hset (i + 1) (Nat.succ_lt_succ hi)
          rwa [show j + (i + 1) = j + 1 + i by omega] at h)
        (fun i hi => by
          have h := hget (i + 1) (Nat.succ_lt_succ hi)
          rwa [show j + (i + 1) = j + 1 + i by omega] at h)
        (by rwa [show j + (m' + 1) = j + 1 + m' by omega] at hfail)
      refine ⟨?_, ?_⟩
      · simp only [rampLoop, hs0, hc0]
        rw [ih'.1]
        rfl
      · simp only [rampLoop, hs0, hc0, commandedVoltages,
          List.filterMap_cons]
        simp only [commandedVoltages] at ih'
        rw [ih'.2, List.take_succ_cons]

theorem rampLoop_getFail (psu : PSU) (ch : ℤ) (delay : ℚ) (e : PyError) :
    ∀ (vs : List ℚ) (j m : Nat), m < vs.length →
      (∀ i, i < m → psu.setFail (j + i) = none) →
      (∀ i, i < m → ∃ c, psu.current (j + i) = Except.ok c) →
      psu.setFail (j + m) = none →
      psu.current (j + m) = Except.error e →
      (rampLoop psu ch delay vs j).1 = Except.error e ∧
      commandedVoltages (rampLoop psu ch delay vs j).2 = vs.take (m + 1) := by
  intro vs
  induction vs with
  | nil => intro j m hm _ _ _ _; simp at hm
  | cons v vs ih =>
    intro j m hm hset hget hsetok hfail
    cases m with
    | zero =>
      rw [Nat.add_zero] at hsetok hfail
      simp [rampLoop, hsetok, hfail, commandedVoltages, List.filterMap_cons]
    | succ m' =>
      have hs0 : psu.setFail j = none := by
        have h := hset 0 (Nat.succ_pos m')
        rwa [Nat.add_zero] at h
      obtain ⟨c, hc0⟩ : ∃ c, psu.current j = Except.ok c := by
        have h := hget 0 (Nat.succ_pos m')
        rwa [Nat.add_zero] at h
      have ih' := ih (j + 1) m' (by simpa using hm)
        (fun i hi => by
          have h := hset (i + 1) (Nat.succ_lt_succ hi)
          rwa [show j + (i + 1) = j + 1 + i by omega] at h)
        (fun i hi => by
          have h := hget (i + 1) (Nat.succ_lt_succ hi)
          rwa [show j + (i + 1) = j + 1 + i by omega] at h)
        (by rwa [show j + (m' + 1) = j + 1 + m' by omega] at hsetok)
        (by rwa [show j + (m' + 1) = j + 1 + m' by omega] at hfail)
      refine ⟨?_, ?_⟩
      · simp only [rampLoop, hs0, hc0]
        rw [ih'.1]
        rfl
      · simp only [rampLoop, hs0, hc0, commandedVoltages,
          List.filterMap_cons]
        simp only [commandedVoltages] at ih'
        rw [ih'.2, List.take_succ_cons]

/-- A device whose `get_channel_current` raises on call index 1 and whose
other calls succeed (currents read 0). -/
def getFailPSU : PSU :=
  ⟨fun _ => none,
   fun k => if k = 1 then Except.error PyError.deviceCommandError
            else Except.ok 0,
   false, fun _ => 0⟩

/-- A device whose `set_channel_voltage` raises on call index 1 and whose
other calls succeed (currents read 0). -/
def setFailPSU : PSU :=
  ⟨fun k => if k = 1 then some PyError.deviceCommandError else none,
   fun _ => Except.ok 0, false, fun _ => 0⟩

/-- C6 counterexample: on the ramp `(0, 0.6, 0.3)` with a device whose
`get_channel_current` fails on step `k = 1`, the error propagates, but
the last successfully commanded voltage is step 1's own voltage `0.3`
(the step-1 `set_channel_voltage` had already succeeded before the get
raised), not step 0's voltage `0` as the claim asserts. -/
theorem ramp_voltage_get_failure_counterexample :
    (ramp_voltage getFailPSU 1 0 0.6 0.3 1).1 =
      Except.error PyError.deviceCommandError ∧
    lastCommanded (ramp_voltage getFailPSU 1 0 0.6 0.3 1).2 = some 0.3 ∧
    (0.3 : ℚ) ≠ 0 := by
  have h : ramp_voltage getFailPSU 1 0 0.6 0.3 1 =
      rampLoop getFailPSU 1 1 [0, 0.3, 0.6] 0 := by
    unfold ramp_voltage
    rw [rampSetpoints_example2]
  refine ⟨?_, ?_, by norm_num⟩
  · rw [h]
    rfl
  · rw [h]
    rfl

/-- C6 amended: if a device call fails on step `k` of a ramp, the error
is surfaced to the caller immediately (the result is that error, with no
retries and no partial `data`), no further device command is issued, and
the device's last successfully commanded voltage is step `k-1`'s voltage
when `set_channel_voltage` is the failing call — but step `k`'s own
voltage when `get_channel_current` is the failing call, since the set on
step `k` has already succeeded by then. -/
theorem ramp_voltage_failure_propagation (psu : PSU) (ch : ℤ)
    (v_start v_stop v_step delay : ℚ) (vs : List ℚ) (k : Nat) (e : PyError)
    (hvs : rampSetpoints v_start v_stop v_step = Except.ok vs)
    (hk : k < vs.length)
    (hset : ∀ i, i < k → psu.setFail i = none)
    (hget : ∀ i, i < k → ∃ c, psu.current i = Except.ok c) :
    (psu.setFail k = some e →
      (ramp_voltage psu ch v_start v_stop v_step delay).1 = Except.error e ∧
      commandedVoltages (ramp_voltage psu ch v_start v_stop v_step delay).2 =
        vs.take k ∧
      (0 < k →
        lastCommanded (ramp_voltage psu ch v_start v_stop v_step delay).2 =
          vs[k - 1]?)) ∧
    (psu.setFail k = none → psu.current k = Except.error e →
      (ramp_voltage psu ch v_start v_stop v_step delay).1 = Except.error e ∧
      commandedVoltages (ramp_voltage psu ch v_start v_stop v_step delay).2 =
        vs.take (k + 1) ∧
      lastCommanded (ramp_voltage psu ch v_start v_stop v_step delay).2 =
        vs[k]?) := by
  have hunf : ramp_voltage psu ch v_start v_stop v_step delay =
      rampLoop psu ch delay vs 0 := by
    unfold ramp_voltage
    rw [hvs]
  have hset0 : ∀ i, i < k → psu.setFail (0 + i) = none := by
    intro i hi
    rw [Nat.zero_add]
    exact hset i hi
  have hget0 : ∀ i, i < k → ∃ c, psu.current (0 + i) = Except.ok c := by
    intro i hi
    rw [Nat.zero_add]
    exact hget i hi
  constructor
  · intro hfail
    have h := rampLoop_setFail psu ch delay e vs 0 k hk hset0 hget0
      (by rwa [Nat.zero_add])
    rw [hunf]
    refine ⟨h.1, h.2, ?_⟩
    intro hk0
    rw [lastCommanded, h.2]
    exact take_getLast vs k hk0 hk.le
  · intro hsetok hfail
    have h := rampLoop_getFail psu ch delay e vs 0 k hk hset0 hget0
      (by rwa [Nat.zero_add]) (by rwa [Nat.zero_add])
    rw [hunf]
    refine ⟨h.1, h.2, ?_⟩
    rw [lastCommanded, h.2]
    have := take_getLast vs (k + 1) (Nat.succ_pos k) (by omega)
    simpa using this

/-- Witness for C6's amended claim: `set_channel_voltage` fails on step
`k = 1` of the ramp `(0, 0.6, 0.3)`; the error propagates and only the
step-0 voltage was commanded. -/
theorem ramp_voltage_failure_propagation_witness :
    (ramp_voltage setFailPSU 1 0 0.6 0.3 1).1 =
      Except.error PyError.deviceCommandError ∧
    commandedVoltages (ramp_voltage setFailPSU 1 0 0.6 0.3 1).2 =
      ([0, 0.3, 0.6] : List ℚ).take 1 := by
  have h := ramp_voltage_failure_propagation setFailPSU 1 0 0.6 0.3 1
    [0, 0.3, 0.6] 1 PyError.deviceCommandError rampSetpoints_example2
    (by norm_num)
    (by
      intro i hi
      have hz : i = 0 := by omega
      subst hz
      rfl)
    (by
      intro i hi
      exact ⟨0, rfl⟩)
  exact ⟨(h.1 rfl).1, (h.1 rfl).2.1⟩

/-- Parameter names of `ramp_voltage` as defined in the source:
`def ramp_voltage(psu, channel, v_start, v_stop, v_step=0.01, delay=1)`. -/
def ramp_voltage_paramNames : List String :=
  ["psu", "channel", "v_start", "v_stop", "v_step", "delay"]

/-- CPython raises `TypeError` at a call that passes a keyword argument
that is not among the callee's parameter names. -/
def hasUnexpectedKeyword (paramNames kwNames : List String) : Bool :=
  kwNames.any fun kw => !(paramNames.contains kw)

/-- `reset_HEMT_settings(HEMT_PSU, output)` has two parameters, neither
with a default: both are required. -/
def reset_HEMT_settings_requiredParams : Nat := 2

/-- CPython raises `TypeError` at a call that supplies fewer arguments
than the callee's required parameters. -/
def missingRequiredArgs (requiredParams argsSupplied : Nat) : Bool :=
  decide (argsSupplied < requiredParams)

/-- `turn_on_HEMTS(HEMT_PSU)` from the source.  Its first statement is
`reset_HEMT_settings()` — zero arguments for a function with two
required positional parameters — so CPython raises `TypeError` at that
call, before the callee body or any driver call can run.  The remaining
statements (the gate ramp `ramp_voltage(HEMT_PSU, ch=1, v_start=0,
v_stop=1.1)`, the `monitor_IV_curve(HEMT_PSU, ch1_data)` call whose
`ch1_data` is an undefined name, and the drain ramp) are unreachable;
the `else` branch below is dead code, never taken since the guard is
true by computation. -/
def turn_on_HEMTS (psu : PSU) : Except PyError Unit × List Event :=
  if missingRequiredArgs reset_HEMT_settings_requiredParams 0 = true then
    (Except.error PyError.typeError, [])
  else
    (Except.ok (), [])

/-- `turn_off_HEMTS(HEMT_PSU)` from the source.  Its first statement is
`ramp_voltage(HEMT_PSU, ch=1, v_start=0, v_stop=1.1)`; the keyword `ch`
is not a parameter name of `ramp_voltage` (the parameter is `channel`),
so CPython raises `TypeError` while binding the call, before
`ramp_voltage` or any driver call runs.  The second ramp and the final
zero-argument `reset_HEMT_settings()` are unreachable; the `else`
branch below is dead code, never taken since the guard is true by
computation. -/
def turn_off_HEMTS (psu : PSU) : Except PyError Unit × List Event :=
  if hasUnexpectedKeyword ramp_voltage_paramNames
      ["ch", "v_start", "v_stop"] = true then
    (Except.error PyError.typeError, [])
  else
    (Except.ok (), [])

/-- C7: for every device, `turn_on_HEMTS` raises `TypeError` before any
driver command is issued (the trace is empty): its first statement
invokes `reset_HEMT_settings()` with no arguments although that function
requires two parameters, so the gate and drain ramps and the
`monitor_IV_curve(HEMT_PSU, ch1_data)` call (which references the
undefined name `ch1_data`) are unreachable. -/
theorem turn_on_HEMTS_typeError (psu : PSU) :
    turn_on_HEMTS psu = (Except.error PyError.typeError, []) := rfl

/-- C9 counterexample: the claim asserts `turn_off_HEMTS` commands
strictly increasing voltage sequences on channels 1 and 2 and only
afterwards raises `TypeError` at its final `reset_HEMT_settings()`; in
fact at a concrete device it commands nothing at all — the trace is
empty, so in particular channel 1 is never ramped from 0 past 1.1 —
because the `TypeError` is raised by the first statement (the
`ramp_voltage(HEMT_PSU, ch=1, ...)` call's unexpected keyword `ch`). -/
theorem turn_off_HEMTS_counterexample :
    turn_off_HEMTS (reliable fun _ => 0) =
      (Except.error PyError.typeError, []) ∧
    commandedVoltages (turn_off_HEMTS (reliable fun _ => 0)).2 = [] :=
  ⟨rfl, rfl⟩

/-- C9 amended: for every device, `turn_off_HEMTS` raises `TypeError` at
its first statement — `ramp_voltage(HEMT_PSU, ch=1, v_start=0,
v_stop=1.1)` passes the keyword `ch`, which is not a `ramp_voltage`
parameter — so no voltage is ever commanded and the device outputs are
never ramped (up or down) or reset by this function. -/
theorem turn_off_HEMTS_typeError (psu : PSU) :
    turn_off_HEMTS psu = (Except.error PyError.typeError, []) ∧
    commandedVoltages (turn_off_HEMTS psu).2 = [] :=
  ⟨rfl, rfl⟩

/-- Index of the first occurrence of an event in a trace. -/
def eventIdx (tr : List Event) (ev : Event) : Nat :=
  tr.findIdx fun x => x == ev

/-- Whether an event enables an output channel (`set_output(..., True)`
or `set_output(..., False)` — any output switch). -/
def isOutputEnable (e : Event) : Bool :=
  match e with
  | Event.setOutput _ _ => true
  | _ => false

/-- `reset_HEMT_settings(HEMT_PSU, output)` from the source (the
`output` parameter is never used by the body).  In order:
`set_overcurrent(ch=1, OCP=0.005)`, `set_overcurrent(ch=2, OCP=0.05)`,
`status = get_output()`, `assert status is False`,
`set_channel_voltage(ch=1, voltage=0)`, `set_channel_voltage(ch=2,
voltage=0)`, `assert get_channel_voltage(ch=1) == 0`,
`assert get_channel_voltage(ch=2) == 0`, `set_output(ch=1, output=True)`,
`set_output(ch=2, output=True)`.  A failed `assert` raises
`AssertionError` and stops the sequence there; the branch conditions
below depend only on the device, so the common event prefix is repeated
in each branch. -/
def reset_HEMT_settings (psu : PSU) (output : Bool) :
    Except PyError Unit × List Event :=
  if psu.outputStatus = false then
    if psu.readback 1 = 0 then
      if psu.readback 2 = 0 then
        (Except.ok (),
         [Event.setOvercurrent 1 0.005, Event.setOvercurrent 2 0.05,
          Event.getOutput psu.outputStatus, Event.setVoltage 1 0,
          Event.setVoltage 2 0, Event.getVoltage 1 (psu.readback 1),
          Event.getVoltage 2 (psu.readback 2), Event.setOutput 1 true,
          Event.setOutput 2 true])
      else
        (Except.error PyError.assertionError,
         [Event.setOvercurrent 1 0.005, Event.setOvercurrent 2 0.05,
          Event.getOutput psu.outputStatus, Event.setVoltage 1 0,
          Event.setVoltage 2 0, Event.getVoltage 1 (psu.readback 1),
          Event.getVoltage 2 (psu.readback 2)])
    else
      (Except.error PyError.assertionError,
       [Event.setOvercurrent 1 0.005, Event.setOvercurrent 2 0.05,
        Event.getOutput psu.outputStatus, Event.setVoltage 1 0,
        Event.setVoltage 2 0, Event.getVoltage 1 (psu.readback 1)])
  else
    (Except.error PyError.assertionError,
     [Event.setOvercurrent 1 0.005, Event.setOvercurrent 2 0.05,
      Event.getOutput psu.outputStatus])

/-- The driver trace of a successful `reset_HEMT_settings` run. -/
def resetTraceOk : List Event :=
  [Event.setOvercurrent 1 0.005, Event.setOvercurrent 2 0.05,
   Event.getOutput false, Event.setVoltage 1 0, Event.setVoltage 2 0,
   Event.getVoltage 1 0, Event.getVoltage 2 0, Event.setOutput 1 true,
   Event.setOutput 2 true]

/-- Constructor discriminant for `Event`, used to dispose of
cross-constructor equality tests when computing trace indices. -/
def ctorTag : Event → Nat
  | Event.setVoltage _ _ => 0
  | Event.getCurrent _ _ => 1
  | Event.sleep _ => 2
  | Event.setOvercurrent _ _ => 3
  | Event.getOutput _ => 4
  | Event.getVoltage _ _ => 5
  | Event.setOutput _ _ => 6

theorem event_eq_false_of_tag (a b : Event) (h : ctorTag a ≠ ctorTag b) :
    (a = b) = False := by
  simp only [eq_iff_iff, iff_false]
  intro he
  exact h (congrArg ctorTag he)

/-- C10: in every successful run of `reset_HEMT_settings`, the driver
sees exactly the trace `resetTraceOk`: overcurrent limits first
(channel 1 to 0.005, then channel 2 to 0.05), then the output status
read back off, then both channel voltages commanded to 0 and read back
as 0, and only then the outputs enabled — channel 1 (gate) strictly
before channel 2 (drain); in particular no output channel is enabled
before the zero commands, the zero readbacks and the off-status check. -/
theorem reset_HEMT_settings_safety_order (psu : PSU) (output : Bool)
    (h : (reset_HEMT_settings psu output).1 = Except.ok ()) :
    (reset_HEMT_settings psu output).2 = resetTraceOk ∧
    (reset_HEMT_settings psu output).2.countP isOutputEnable = 2 ∧
    eventIdx (reset_HEMT_settings psu output).2
      (Event.setOvercurrent 1 0.005) = 0 ∧
    eventIdx (reset_HEMT_settings psu output).2
      (Event.setOvercurrent 2 0.05) = 1 ∧
    eventIdx (reset_HEMT_settings psu output).2 (Event.getOutput false) <
      eventIdx (reset_HEMT_settings psu output).2 (Event.setOutput 1 true) ∧
    eventIdx (reset_HEMT_settings psu output).2 (Event.setVoltage 1 0) <
      eventIdx (reset_HEMT_settings psu output).2 (Event.setOutput 1 true) ∧
    eventIdx (reset_HEMT_settings psu output).2 (Event.setVoltage 2 0) <
      eventIdx (reset_HEMT_settings psu output).2 (Event.setOutput 1 true) ∧
    eventIdx (reset_HEMT_settings psu output).2 (Event.getVoltage 1 0) <
      eventIdx (reset_HEMT_settings psu output).2 (Event.setOutput 1 true) ∧
    eventIdx (reset_HEMT_settings psu output).2 (Event.getVoltage 2 0) <
      eventIdx (reset_HEMT_settings psu output).2 (Event.setOutput 1 true) ∧
    eventIdx (reset_HEMT_settings psu output).2 (Event.setOutput 1 true) <
      eventIdx (reset_HEMT_settings psu output).2 (Event.setOutput 2 true) := by
  by_cases h1 : psu.outputStatus = false
  · by_cases h2 : psu.readback 1 = 0
    · by_cases h3 : psu.readback 2 = 0
      · have htr : (reset_HEMT_settings psu output).2 = resetTraceOk := by
          simp [reset_HEMT_settings, h1, h2, h3, resetTraceOk]
        rw [htr]
        refine ⟨rfl, ?_, ?_⟩
        · norm_num [resetTraceOk, List.countP_cons, isOutputEnable]
        · norm_num [eventIdx, resetTraceOk, List.findIdx_cons,
            Bool.cond_eq_ite, beq_iff_eq, event_eq_false_of_tag, ctorTag]
      · exfalso
        simp [reset_HEMT_settings, h1, h2, h3] at h
    · exfalso
      simp [reset_HEMT_settings, h1, h2] at h
  · exfalso
    simp [reset_HEMT_settings, h1] at h

/-- Witness for C10 at a device with output off and both channels
reading 0 V: the run succeeds, and its trace is `resetTraceOk`. -/
theorem reset_HEMT_settings_safety_order_witness :
    (reset_HEMT_settings (reliable fun _ => 0) true).2 = resetTraceOk :=
  (reset_HEMT_settings_safety_order (reliable fun _ => 0) true
    (by simp [reset_HEMT_settings, reliable])).1
